import Mathlib

/-!
# chatapp-backend: the reaction toggle, the message queries and the socket handlers

A shallow embedding of `server.js`.

* A JavaScript `Map` from emoji to array of usernames is the list of its entries in
  insertion order (`JSMap`), with `has`, `get`, `set` and `delete` as `Map` defines them.
* The body of the `add-reaction` handler that rewrites the reactions (lines 87-105) is
  `addReactionToggle` on a plain `Map`. In the handler `message.reactions` is a Mongoose
  map, whose `set` and `delete` throw on a key they refuse: `toggleReactions` is the same
  lines with these, and it is `addReactionToggle` for every key the map accepts
  (`toggleReactions_eq`).
* The collection is the list of its documents in insertion order (`Store`); whether a
  read or a write of the store rejects is an input of the handler (`Env`), and a rejection
  inside a `try` block is an `Except.error` that the handler's `catch` turns into what it
  does.
* What a handler emits is a list of `Emit`s (`socket.emit` and `io.emit`), and `deliver`
  turns it into what each connected socket receives.
-/

namespace ChatApp

/-! ## JavaScript `Map` and array operations -/

/-- The entries of a `Map<String, String[]>`, in insertion order. -/
abbrev JSMap := List (String × List String)

/-- The method `map.get(key)`: the value of the entry with that key, `none` for `undefined`. -/
def JSMap.get : JSMap → String → Option (List String)
  | [], _ => none
  | (k, v) :: rest, key => if k = key then some v else JSMap.get rest key

/-- The method `map.has(key)`. -/
def JSMap.has : JSMap → String → Bool
  | [], _ => false
  | (k, _) :: rest, key => if k = key then true else JSMap.has rest key

/-- The method `map.set(key, value)`: an existing entry keeps its place and gets the new
value, a new entry goes to the end. -/
def JSMap.set : JSMap → String → List String → JSMap
  | [], key, value => [(key, value)]
  | (k, v) :: rest, key, value =>
    if k = key then (k, value) :: rest else (k, v) :: JSMap.set rest key value

/-- The method `map.delete(key)`. -/
def JSMap.delete (m : JSMap) (key : String) : JSMap :=
  m.filter (fun p => p.1 ≠ key)

/-- The call `users.includes(username)`. -/
def includes (users : List String) (username : String) : Bool :=
  users.contains username

/-- The call `users.filter(u => u !== username)`. -/
def filterNot (users : List String) (username : String) : List String :=
  users.filter (fun u => u ≠ username)

/-- The call `users.push(username)`, as the array after it. -/
def push (users : List String) (username : String) : List String :=
  users ++ [username]

/-- What a rejected promise or a throwing call carries: a rejected read, a failed schema
validation, a rejected write, a key that a Mongoose map refuses. -/
inductive Thrown where
  | read
  | validation
  | write
  | key
deriving DecidableEq

/-- The check `checkValidKey` of a Mongoose map on a string key: the key does not start with
`$`, does not contain `.` and is none of the reserved names. -/
def checkValidKey (key : String) : Bool :=
  !(key.data.head? == some '$') && !(key.data.contains '.') &&
    !(["__proto__", "constructor", "prototype"].contains key)

/-- The method `set(key, value)` of a Mongoose map: it throws on a key that `checkValidKey`
refuses and is `Map.set` otherwise. -/
def MongooseMap.set (m : JSMap) (key : String) (value : List String) : Except Thrown JSMap :=
  if checkValidKey key then .ok (JSMap.set m key value) else .error .key

/-- The method `delete(key)` of a Mongoose map: it calls `this.set(key, undefined)`, which
throws on a key that `checkValidKey` refuses, and then `Map.delete`. -/
def MongooseMap.delete (m : JSMap) (key : String) : Except Thrown JSMap :=
  if checkValidKey key then .ok (JSMap.delete m key) else .error .key

/-! ## The reaction toggle of the `add-reaction` handler -/

/-- Lines 87-105 of `server.js` on `message.reactions`, the Mongoose map of the schema
(lines 37-41): the reactions after one `add-reaction` event, or what `set` or `delete`
threw. -/
def toggleReactions (reactions : JSMap) (emoji username : String) : Except Thrown JSMap :=
  if JSMap.has reactions emoji then
    match JSMap.get reactions emoji with
    | some users =>
      if includes users username then
        -- Remove reaction
        let filtered := filterNot users username
        if filtered.length = 0 then
          MongooseMap.delete reactions emoji
        else
          MongooseMap.set reactions emoji filtered
      else
        -- Add reaction
        MongooseMap.set reactions emoji (push users username)
    | none => .ok reactions -- not reached, see `JSMap.has_eq_isSome`
  else
    -- New reaction
    MongooseMap.set reactions emoji [username]

/-- The reactions of the message after the lines 87-105 ran: the toggled reactions, and the
ones before when `set` or `delete` threw. -/
def reactionsAfter (reactions : JSMap) (emoji username : String) : JSMap :=
  match toggleReactions reactions emoji username with
  | .ok toggled => toggled
  | .error _ => reactions

/-- Lines 87-105 of `server.js` with the operations of a plain `Map`, which accept every
key: the reactions after one `add-reaction` event whose emoji the Mongoose map accepts. -/
def addReactionToggle (reactions : JSMap) (emoji username : String) : JSMap :=
  if JSMap.has reactions emoji then
    match JSMap.get reactions emoji with
    | some users =>
      if includes users username then
        -- Remove reaction
        let filtered := filterNot users username
        if filtered.length = 0 then
          JSMap.delete reactions emoji
        else
          JSMap.set reactions emoji filtered
      else
        -- Add reaction
        JSMap.set reactions emoji (push users username)
    | none => reactions -- not reached, see `JSMap.has_eq_isSome`
  else
    -- New reaction
    JSMap.set reactions emoji [username]

/-- The reactions after a sequence of `add-reaction` events on one message. -/
def toggleAll (reactions : JSMap) (events : List (String × String)) : JSMap :=
  events.foldl (fun r ev => addReactionToggle r ev.1 ev.2) reactions

/-- No emoji is stored with an empty list of users. -/
def NoEmptyEntry (m : JSMap) : Prop := ∀ p ∈ m, p.2 ≠ []

/-- No username occurs twice in the list of one emoji. -/
def NoDupUser (m : JSMap) : Prop := ∀ p ∈ m, p.2.Nodup

instance (m : JSMap) : Decidable (NoEmptyEntry m) :=
  inferInstanceAs (Decidable (∀ p ∈ m, p.2 ≠ []))

instance (m : JSMap) : Decidable (NoDupUser m) :=
  inferInstanceAs (Decidable (∀ p ∈ m, p.2.Nodup))

/-- The mapping a reactions value stands for: emoji to list of usernames. -/
abbrev Mapping := String → Option (List String)

/-- The Reaction Engine of the specification, section 4.2, on mappings: (1) no entry for
`emoji`: create the entry `[username]`; (2) `username` present in the entry: remove it,
and delete the entry when nothing is left; (3) otherwise append `username`. -/
def applyToggle (currentReactions : Mapping) (emoji username : String) : Mapping :=
  fun key =>
    if key = emoji then
      match currentReactions emoji with
      | none => some [username]
      | some users =>
        if username ∈ users then
          (if users.filter (fun u => u ≠ username) = [] then none
           else some (users.filter (fun u => u ≠ username)))
        else some (users ++ [username])
    else currentReactions key

/-! ## Documents, the collection and what it can do -/

/-- A document of the `Message` model. `_id` is the ObjectId and `timestamp` the `Date`, both
as numbers; a path that was never given is `none`. -/
structure Message where
  _id : Nat
  text : Option String
  sender : Option String
  timestamp : Nat
  reactions : JSMap
deriving DecidableEq

/-- The `messages` collection: its documents in insertion order. -/
abbrev Store := List Message

/-- What the handler does not decide: whether a read or a write of the store rejects, and the
clock. -/
structure Env where
  findFails : Bool
  saveFails : Bool
  now : Nat
deriving DecidableEq

/-- The validator `required: true` on a `String` path of `messageSchema`: the value is there and is not
the empty string. -/
def required (value : Option String) : Bool :=
  match value with
  | none => false
  | some s => decide (s ≠ "")

/-- The ObjectId a new document gets: one that no document of the collection has. -/
def freshId (store : Store) : Nat :=
  (store.map (fun m => m._id)).foldr max 0 + 1

/-- The document `new Message(...)` of line 61, with the given text and sender and empty
reactions: `timestamp` defaults to `Date.now`. -/
def newMessage (store : Store) (env : Env) (text sender : Option String) : Message :=
  { _id := freshId store, text := text, sender := sender, timestamp := env.now, reactions := [] }

/-- The call `message.save()`: the schema validation, then the write; a document whose `_id` is in the
collection is replaced there, another one is inserted at the end. -/
def save (store : Store) (env : Env) (message : Message) : Except Thrown Store :=
  if required message.text && required message.sender then
    if env.saveFails then
      .error .write
    else if store.any (fun m => m._id = message._id) then
      .ok (store.map (fun m => if m._id = message._id then message else m))
    else
      .ok (store ++ [message])
  else
    .error .validation

/-- The call `Message.findById(id)`: `none` is `null`. -/
def findById (store : Store) (env : Env) (id : Nat) : Except Thrown (Option Message) :=
  if env.findFails then .error .read else .ok (store.find? (fun m => m._id = id))

/-- The stage `.sort` by `timestamp: 1`: ascending by timestamp; documents of equal
timestamp keep their order in the collection. -/
def sortByTimestamp (messages : List Message) : List Message :=
  messages.insertionSort (fun a b => a.timestamp ≤ b.timestamp)

/-- The stage `.limit(n)`. -/
def limit (n : Nat) (messages : List Message) : List Message :=
  messages.take n

/-- The query `Message.find().sort(...).limit(100)` on a store that answers. -/
def findSortLimit (store : Store) : List Message :=
  limit 100 (sortByTimestamp store)

/-- The query `Message.find().sort(...).limit(100)`, which may reject. -/
def findMessages (store : Store) (env : Env) : Except Thrown (List Message) :=
  if env.findFails then .error .read else .ok (findSortLimit store)

/-! ## Events -/

/-- What an emitted event or a response carries. -/
inductive Payload where
  /-- The array of documents of `load-messages` and of `GET /api/messages`. -/
  | messages (list : List Message)
  /-- The document of `new-message`. -/
  | message (doc : Message)
  /-- The object of `reaction-updated`; `reactions` is `Object.fromEntries(reactions)`, the
  entries of the map as an object from emoji to array of usernames. -/
  | reactionUpdated (messageId : Nat) (reactions : JSMap)
  /-- The object of `error`, and the body of a 500 response. -/
  | failure (message : String)
deriving DecidableEq

/-- A call of `socket.emit` (to the socket of the handler) or of `io.emit` (to every
connected socket). -/
inductive Emit where
  | socketEmit (event : String) (payload : Payload)
  | ioEmit (event : String) (payload : Payload)
deriving DecidableEq

/-- The sockets that receive one emitted event, each with the event. -/
def deliver (sockets : List Nat) (origin : Nat) : Emit → List (Nat × String × Payload)
  | .socketEmit event payload => [(origin, event, payload)]
  | .ioEmit event payload => sockets.map (fun s => (s, event, payload))

/-- The deliveries of the events a handler emitted, in order. -/
def deliverAll (sockets : List Nat) (origin : Nat) (emits : List Emit) :
    List (Nat × String × Payload) :=
  (emits.map (deliver sockets origin)).flatten

/-- The payload of `send-message`. -/
structure SendMessageData where
  text : Option String
  sender : Option String
deriving DecidableEq

/-- The payload of `add-reaction`. -/
structure AddReactionData where
  messageId : Nat
  emoji : String
  username : String
deriving DecidableEq

/-! ## The handlers -/

/-- The `connection` handler, lines 51-56: the promise has no `catch`, a rejection emits
nothing. -/
def connection (store : Store) (env : Env) : List Emit :=
  match findMessages store env with
  | .ok messages => [Emit.socketEmit "load-messages" (Payload.messages messages)]
  | .error _ => []

/-- The `try` block of the `send-message` handler. -/
def sendMessageTry (store : Store) (env : Env) (data : SendMessageData) :
    Except Thrown (Store × List Emit) := do
  let message := newMessage store env data.text data.sender
  let store ← save store env message
  -- Broadcast to all connected users
  return (store, [Emit.ioEmit "new-message" (Payload.message message)])

/-- The `send-message` handler, lines 59-75: the store after it and what it emitted. -/
def sendMessage (store : Store) (env : Env) (data : SendMessageData) : Store × List Emit :=
  match sendMessageTry store env data with
  | .ok r => r
  | .error _ => (store, [Emit.socketEmit "error" (Payload.failure "Failed to send message")])

/-- The `try` block of the `add-reaction` handler. -/
def addReactionTry (store : Store) (env : Env) (data : AddReactionData) :
    Except Thrown (Store × List Emit) := do
  let found ← findById store env data.messageId
  match found with
  | none => return (store, [])
  | some message =>
    let reactions ← toggleReactions message.reactions data.emoji data.username
    let message := { message with reactions := reactions }
    let store ← save store env message
    -- Broadcast reaction update
    return (store, [Emit.ioEmit "reaction-updated"
      (Payload.reactionUpdated message._id reactions)])

/-- The `add-reaction` handler, lines 78-118: the `catch` only logs, whatever was thrown. -/
def addReaction (store : Store) (env : Env) (data : AddReactionData) : Store × List Emit :=
  match addReactionTry store env data with
  | .ok r => r
  | .error _ => (store, [])

/-- An HTTP response: status and JSON body. -/
structure Response where
  status : Nat
  body : Payload
deriving DecidableEq

/-- The handler of `GET /api/messages`, lines 126-135. -/
def getApiMessages (store : Store) (env : Env) : Response :=
  match findMessages store env with
  | .ok messages => { status := 200, body := Payload.messages messages }
  | .error _ => { status := 500, body := Payload.failure "Failed to fetch messages" }

/-- A collection of one document, of `_id` 1, with no reactions. -/
def storeOfOne : Store :=
  [{ _id := 1, text := some "hi", sender := some "alice", timestamp := 5, reactions := [] }]

/-- A collection of 101 documents with the timestamps 0 to 100, inserted in that order. -/
def storeOf101 : Store :=
  (List.range 101).map (fun i =>
    { _id := i + 1, text := some "m", sender := some "a", timestamp := i, reactions := [] })

/-! ## Lemmas on `JSMap` -/

theorem JSMap.has_eq_isSome (m : JSMap) (key : String) :
    JSMap.has m key = (JSMap.get m key).isSome := by
  induction m with
  | nil => rfl
  | cons p rest ih =>
    obtain ⟨k, v⟩ := p
    by_cases h : k = key <;> simp [JSMap.has, JSMap.get, h, ih]

theorem JSMap.get_set (m : JSMap) (key : String) (value : List String) (key' : String) :
    JSMap.get (JSMap.set m key value) key' =
      if key' = key then some value else JSMap.get m key' := by
  induction m with
  | nil =>
    by_cases h : key' = key
    · simp [JSMap.set, JSMap.get, h]
    · have h' : ¬ key = key' := fun e => h e.symm
      simp [JSMap.set, JSMap.get, h, h']
  | cons p rest ih =>
    obtain ⟨k, v⟩ := p
    by_cases hk : k = key
    · subst hk
      by_cases h : key' = k
      · subst h; simp [JSMap.set, JSMap.get]
      · have h' : ¬ k = key' := fun e => h e.symm
        simp [JSMap.set, JSMap.get, h, h']
    · by_cases h : key' = key
      · subst h
        simp [JSMap.set, JSMap.get, hk, ih]
      · by_cases hkk : k = key'
        · simp [JSMap.set, JSMap.get, hk, hkk, h]
        · simp [JSMap.set, JSMap.get, hk, hkk, h, ih]

theorem JSMap.get_delete (m : JSMap) (key key' : String) :
    JSMap.get (JSMap.delete m key) key' =
      if key' = key then none else JSMap.get m key' := by
  induction m with
  | nil => simp [JSMap.delete, JSMap.get]
  | cons p rest ih =>
    obtain ⟨k, v⟩ := p
    simp only [JSMap.delete] at ih
    by_cases hk : k = key
    · subst hk
      by_cases h : key' = k
      · subst h; simpa [JSMap.delete, JSMap.get] using ih
      · have h' : ¬ k = key' := fun e => h e.symm
        simpa [JSMap.delete, JSMap.get, h, h'] using ih
    · by_cases hkk : k = key'
      · subst hkk
        simp [JSMap.delete, JSMap.get, hk]
      · simpa [JSMap.delete, JSMap.get, hk, hkk] using ih

theorem JSMap.mem_of_get (m : JSMap) (key : String) (users : List String)
    (h : JSMap.get m key = some users) : (key, users) ∈ m := by
  induction m with
  | nil => simp [JSMap.get] at h
  | cons p rest ih =>
    obtain ⟨k, v⟩ := p
    by_cases hk : k = key
    · simp [JSMap.get, hk] at h
      simp [hk, h]
    · simp [JSMap.get, hk] at h
      exact List.mem_cons_of_mem _ (ih h)

theorem JSMap.mem_set (m : JSMap) (key : String) (value : List String)
    (p : String × List String) (h : p ∈ JSMap.set m key value) :
    p ∈ m ∨ p = (key, value) := by
  induction m with
  | nil => simpa [JSMap.set] using h
  | cons q rest ih =>
    obtain ⟨k, v⟩ := q
    by_cases hk : k = key
    · simp [JSMap.set, hk] at h
      rcases h with h | h
      · right; exact h
      · left; exact List.mem_cons_of_mem _ h
    · simp [JSMap.set, hk] at h
      rcases h with h | h
      · left; simp [h]
      · rcases ih h with h' | h'
        · left; exact List.mem_cons_of_mem _ h'
        · right; exact h'

theorem JSMap.mem_delete (m : JSMap) (key : String) (p : String × List String)
    (h : p ∈ JSMap.delete m key) : p ∈ m := by
  simp only [JSMap.delete, List.mem_filter] at h
  exact h.1

theorem JSMap.has_iff_mem_keys (m : JSMap) (key : String) :
    JSMap.has m key = true ↔ key ∈ m.map Prod.fst := by
  induction m with
  | nil => simp [JSMap.has]
  | cons p rest ih =>
    obtain ⟨k, v⟩ := p
    by_cases hk : k = key
    · simp [JSMap.has, hk]
    · have hk' : ¬ key = k := fun e => hk e.symm
      simp [JSMap.has, hk, hk', ih]

theorem JSMap.keys_set (m : JSMap) (key : String) (value : List String) :
    (JSMap.set m key value).map Prod.fst =
      if JSMap.has m key then m.map Prod.fst else m.map Prod.fst ++ [key] := by
  induction m with
  | nil => simp [JSMap.set, JSMap.has]
  | cons p rest ih =>
    obtain ⟨k, v⟩ := p
    by_cases hk : k = key
    · simp [JSMap.set, JSMap.has, hk]
    · simp only [JSMap.set, JSMap.has, if_neg hk, List.map_cons, ih]
      split <;> rfl

/-- The entries of a `Map` have distinct keys, and `set` and `delete` keep them so. -/
theorem JSMap.keys_nodup_set (m : JSMap) (key : String) (value : List String)
    (h : (m.map Prod.fst).Nodup) : ((JSMap.set m key value).map Prod.fst).Nodup := by
  rw [JSMap.keys_set]
  by_cases hk : JSMap.has m key = true
  · rw [if_pos hk]; exact h
  · rw [if_neg hk]
    have hn : key ∉ m.map Prod.fst := fun e => hk ((JSMap.has_iff_mem_keys m key).2 e)
    rw [List.nodup_append]
    refine ⟨h, List.nodup_singleton _, ?_⟩
    intro a ha hb
    rw [List.mem_singleton] at hb
    exact hn (hb ▸ ha)

theorem JSMap.keys_nodup_delete (m : JSMap) (key : String)
    (h : (m.map Prod.fst).Nodup) : ((JSMap.delete m key).map Prod.fst).Nodup :=
  h.sublist (List.Sublist.map _ (List.filter_sublist m))

/-! ## The toggle as a function on mappings -/

theorem includes_iff (users : List String) (username : String) :
    includes users username = true ↔ username ∈ users := by
  simp [includes]

theorem filterNot_eq (users : List String) (username : String) :
    users.filter (fun u => u ≠ username) = filterNot users username := rfl

theorem not_mem_filterNot (users : List String) (username : String) :
    username ∉ filterNot users username := by
  simp [filterNot, List.mem_filter]

theorem mem_filterNot (users : List String) (username x : String) :
    x ∈ filterNot users username ↔ x ∈ users ∧ x ≠ username := by
  simp [filterNot, List.mem_filter]

theorem filterNot_of_not_mem (users : List String) (username : String)
    (h : username ∉ users) : filterNot users username = users := by
  unfold filterNot
  rw [List.filter_eq_self]
  intro a ha
  have : a ≠ username := fun e => h (e ▸ ha)
  simp [this]

theorem filterNot_push (users : List String) (username : String) :
    filterNot (users ++ [username]) username = filterNot users username := by
  simp [filterNot, List.filter_append]

/-- In the toggle, the `none` branch under `has` is never taken and the result is, entry by
entry, what `applyToggle` gives on the mapping of the stored reactions. -/
theorem get_addReactionToggle (reactions : JSMap) (emoji username : String) (key : String) :
    JSMap.get (addReactionToggle reactions emoji username) key =
      applyToggle (JSMap.get reactions) emoji username key := by
  unfold addReactionToggle applyToggle
  rw [JSMap.has_eq_isSome]
  simp only [filterNot_eq]
  cases h : JSMap.get reactions emoji with
  | none => simp [JSMap.get_set]
  | some users =>
    simp only [Option.isSome_some, if_true, push, List.length_eq_zero]
    by_cases hu : username ∈ users
    · rw [if_pos ((includes_iff users username).2 hu), if_pos hu]
      by_cases hf : filterNot users username = []
      · rw [if_pos hf, if_pos hf, JSMap.get_delete]
      · rw [if_neg hf, if_neg hf, JSMap.get_set]
    · rw [if_neg (fun e => hu ((includes_iff users username).1 e)), if_neg hu, JSMap.get_set]

theorem get_addReactionToggle_fun (reactions : JSMap) (emoji username : String) :
    JSMap.get (addReactionToggle reactions emoji username) =
      applyToggle (JSMap.get reactions) emoji username :=
  funext (get_addReactionToggle reactions emoji username)

/-- On a key the Mongoose map accepts, lines 87-105 give the toggle of the plain `Map`; on a
key it refuses they throw, in every branch, at the `set` or the `delete`. -/
theorem toggleReactions_eq (reactions : JSMap) (emoji username : String) :
    toggleReactions reactions emoji username =
      if checkValidKey emoji then .ok (addReactionToggle reactions emoji username)
      else .error .key := by
  unfold toggleReactions addReactionToggle MongooseMap.set MongooseMap.delete
  rw [JSMap.has_eq_isSome]
  cases h : JSMap.get reactions emoji with
  | none =>
    simp only [Option.isSome_none, Bool.false_eq_true, if_false]
  | some users =>
    simp only [Option.isSome_some, if_true]
    by_cases hv : checkValidKey emoji = true
    · simp only [hv, if_true]
      split
      · split <;> rfl
      · rfl
    · simp only [hv, if_false]
      split
      · split <;> rfl
      · rfl

theorem reactionsAfter_eq (reactions : JSMap) (emoji username : String) :
    reactionsAfter reactions emoji username =
      if checkValidKey emoji then addReactionToggle reactions emoji username
      else reactions := by
  unfold reactionsAfter
  rw [toggleReactions_eq]
  cases checkValidKey emoji <;> rfl

/-- Two toggles in a row, on mappings. -/
theorem applyToggle_twice (f : Mapping) (emoji username : String) (key : String) :
    applyToggle (applyToggle f emoji username) emoji username key =
      if key = emoji then
        match f emoji with
        | none => none
        | some users =>
          if username ∈ users then some (users.filter (fun u => u ≠ username) ++ [username])
          else if users = [] then none else some users
      else f key := by
  unfold applyToggle
  simp only [filterNot_eq]
  by_cases hk : key = emoji
  · subst hk
    simp only [if_true]
    cases h : f key with
    | none => simp [filterNot]
    | some users =>
      by_cases hu : username ∈ users
      · simp only [if_pos hu]
        by_cases hf : filterNot users username = []
        · simp only [if_pos hf]
          rw [hf, List.nil_append]
        · simp only [if_neg hf, if_neg (not_mem_filterNot users username)]
      · simp only [if_neg hu, List.mem_append, List.mem_singleton, or_true, if_true,
          filterNot_push, filterNot_of_not_mem users username hu]
  · simp only [if_neg hk]

theorem get_toggle_twice (reactions : JSMap) (emoji username : String) (key : String) :
    JSMap.get (addReactionToggle (addReactionToggle reactions emoji username) emoji username)
        key =
      if key = emoji then
        match JSMap.get reactions emoji with
        | none => none
        | some users =>
          if username ∈ users then some (filterNot users username ++ [username])
          else if users = [] then none else some users
      else JSMap.get reactions key := by
  rw [get_addReactionToggle, get_addReactionToggle_fun, applyToggle_twice]
  rfl

theorem noEmptyEntry_get (m : JSMap) (h : NoEmptyEntry m) (key : String)
    (users : List String) (hg : JSMap.get m key = some users) : users ≠ [] :=
  h (key, users) (JSMap.mem_of_get m key users hg)

theorem noEmptyEntry_toggle (reactions : JSMap) (emoji username : String)
    (h : NoEmptyEntry reactions) : NoEmptyEntry (addReactionToggle reactions emoji username) := by
  intro p hp
  unfold addReactionToggle at hp
  split at hp
  · split at hp
    · split at hp
      · simp only at hp
        split at hp
        · exact h p (JSMap.mem_delete _ _ _ hp)
        · rename_i hlen
          rcases JSMap.mem_set _ _ _ _ hp with hm | he
          · exact h p hm
          · subst he
            intro hnil
            exact hlen (by rw [show filterNot _ username = [] from hnil]; rfl)
      · rcases JSMap.mem_set _ _ _ _ hp with hm | he
        · exact h p hm
        · subst he
          simp [push]
    · exact h p hp
  · rcases JSMap.mem_set _ _ _ _ hp with hm | he
    · exact h p hm
    · subst he
      simp

theorem noDupUser_toggle (reactions : JSMap) (emoji username : String)
    (h : NoDupUser reactions) : NoDupUser (addReactionToggle reactions emoji username) := by
  intro p hp
  unfold addReactionToggle at hp
  split at hp
  · split at hp
    · rename_i users hget
      have hnd : users.Nodup := h (emoji, users) (JSMap.mem_of_get _ _ _ hget)
      split at hp
      · simp only at hp
        split at hp
        · exact h p (JSMap.mem_delete _ _ _ hp)
        · rcases JSMap.mem_set _ _ _ _ hp with hm | he
          · exact h p hm
          · subst he
            exact List.Nodup.filter _ hnd
      · rename_i hinc
        rcases JSMap.mem_set _ _ _ _ hp with hm | he
        · exact h p hm
        · subst he
          have hu : username ∉ users := fun e => hinc ((includes_iff users username).2 e)
          show (users ++ [username]).Nodup
          rw [List.nodup_append]
          refine ⟨hnd, List.nodup_singleton _, ?_⟩
          intro a ha hb
          rw [List.mem_singleton] at hb
          exact hu (hb ▸ ha)
    · exact h p hp
  · rcases JSMap.mem_set _ _ _ _ hp with hm | he
    · exact h p hm
    · subst he
      exact List.nodup_singleton _

/-- The toggle takes a `Map` to a `Map`: the keys stay distinct. -/
theorem keys_nodup_toggle (reactions : JSMap) (emoji username : String)
    (h : (reactions.map Prod.fst).Nodup) :
    ((addReactionToggle reactions emoji username).map Prod.fst).Nodup := by
  unfold addReactionToggle
  split
  · split
    · split
      · simp only
        split
        · exact JSMap.keys_nodup_delete _ _ h
        · exact JSMap.keys_nodup_set _ _ _ h
      · exact JSMap.keys_nodup_set _ _ _ h
    · exact h
  · exact JSMap.keys_nodup_set _ _ _ h

theorem noEmptyEntry_toggleAll (events : List (String × String)) (reactions : JSMap)
    (h : NoEmptyEntry reactions) : NoEmptyEntry (toggleAll reactions events) := by
  induction events generalizing reactions with
  | nil => exact h
  | cons ev rest ih => exact ih _ (noEmptyEntry_toggle reactions ev.1 ev.2 h)

theorem noDupUser_toggleAll (events : List (String × String)) (reactions : JSMap)
    (h : NoDupUser reactions) : NoDupUser (toggleAll reactions events) := by
  induction events generalizing reactions with
  | nil => exact h
  | cons ev rest ih => exact ih _ (noDupUser_toggle reactions ev.1 ev.2 h)

/-- On the Mongoose map too a toggle keeps the three properties of the stored reactions:
distinct keys, no empty list, no username twice. -/
theorem reactionsAfter_invariants (reactions : JSMap) (emoji username : String) :
    ((reactions.map Prod.fst).Nodup →
      ((reactionsAfter reactions emoji username).map Prod.fst).Nodup) ∧
    (NoEmptyEntry reactions → NoEmptyEntry (reactionsAfter reactions emoji username)) ∧
    (NoDupUser reactions → NoDupUser (reactionsAfter reactions emoji username)) := by
  rw [reactionsAfter_eq]
  by_cases hv : checkValidKey emoji = true
  · simp only [hv, if_true]
    exact ⟨keys_nodup_toggle reactions emoji username,
      noEmptyEntry_toggle reactions emoji username, noDupUser_toggle reactions emoji username⟩
  · simp only [hv, if_false]
    exact ⟨id, id, id⟩

/-- Two toggles in a row on the Mongoose map: those of the plain `Map` on a key it accepts,
and the reactions before on a key it refuses. -/
theorem reactionsAfter_twice (reactions : JSMap) (emoji username : String) :
    reactionsAfter (reactionsAfter reactions emoji username) emoji username =
      if checkValidKey emoji then
        addReactionToggle (addReactionToggle reactions emoji username) emoji username
      else reactions := by
  rw [reactionsAfter_eq, reactionsAfter_eq]
  cases checkValidKey emoji <;> rfl

/-- With `bob` and `carol` on `👍`, the Mongoose map accepts both toggles by `bob`, and they
are those of the plain `Map`: `carol` alone, then `carol` and `bob`. -/
theorem toggleReactions_bob_twice :
    toggleReactions [("👍", ["bob", "carol"])] "👍" "bob" = .ok [("👍", ["carol"])] ∧
    toggleReactions [("👍", ["carol"])] "👍" "bob" = .ok [("👍", ["carol", "bob"])] := by
  have h : checkValidKey "👍" = true := by decide
  constructor
  · rw [toggleReactions_eq, if_pos h]
    exact congrArg Except.ok (by decide)
  · rw [toggleReactions_eq, if_pos h]
    exact congrArg Except.ok (by decide)

/-! ## The reaction toggle: what the specification says of it -/

/-- The toggle of the plain `Map` is `applyToggle` of the specification on the mapping of the
stored reactions, with its three cases, and leaves the entry of every other emoji. -/
theorem addReactionToggle_cases (reactions : JSMap) (emoji username : String) :
    (∀ key, JSMap.get (addReactionToggle reactions emoji username) key =
        applyToggle (JSMap.get reactions) emoji username key) ∧
    (JSMap.get reactions emoji = none →
        JSMap.get (addReactionToggle reactions emoji username) emoji = some [username]) ∧
    (∀ users, JSMap.get reactions emoji = some users → username ∈ users →
        JSMap.get (addReactionToggle reactions emoji username) emoji =
          if users.filter (fun u => u ≠ username) = [] then none
          else some (users.filter (fun u => u ≠ username))) ∧
    (∀ users, JSMap.get reactions emoji = some users → username ∉ users →
        JSMap.get (addReactionToggle reactions emoji username) emoji =
          some (users ++ [username])) ∧
    (∀ key, key ≠ emoji →
        JSMap.get (addReactionToggle reactions emoji username) key =
          JSMap.get reactions key) := by
  refine ⟨get_addReactionToggle reactions emoji username, ?_, ?_, ?_, ?_⟩
  · intro h
    rw [get_addReactionToggle]
    simp [applyToggle, h]
  · intro users h hu
    rw [get_addReactionToggle]
    simp only [applyToggle, h, if_true, if_pos hu]
  · intro users h hu
    rw [get_addReactionToggle]
    simp only [applyToggle, h, if_true, if_neg hu]
  · intro key hk
    rw [get_addReactionToggle]
    simp only [applyToggle, if_neg hk]

theorem toggleReactions_refused : toggleReactions [] "a.b" "bob" = .error .key := by
  rw [toggleReactions_eq]
  have h : checkValidKey "a.b" = false := by decide
  rw [h]
  rfl

/-- C6, as stated, fails: on a message with no reactions and the emoji `a.b`, which the
Mongoose map refuses as a key, the handler's toggle throws at line 104 and produces no
reactions at all, where `applyToggle` has the entry `a.b` with `bob`. -/
theorem toggleReactions_not_applyToggle :
    ¬ ∀ (reactions : JSMap) (emoji username : String),
        ∃ toggled, toggleReactions reactions emoji username = .ok toggled ∧
          ∀ key, JSMap.get toggled key = applyToggle (JSMap.get reactions) emoji username key := by
  intro h
  obtain ⟨toggled, h1, _⟩ := h [] "a.b" "bob"
  rw [toggleReactions_refused] at h1
  cases h1

/-- C6, amended: for every emoji that the Mongoose map accepts as a key (it does not start
with `$`, does not contain `.` and is none of `__proto__`, `constructor`, `prototype`) the
toggle of the `add-reaction` handler returns reactions that are `applyToggle` of the
specification on the found message's reactions. (1) With no entry for the emoji the result
maps it to `[username]`; (2) with the username in the emoji's list the result maps the emoji
to the list without the username, the others in their order, and has no entry for it when
nothing is left; (3) otherwise the result maps the emoji to the list with the username at
its end. The entry of every other emoji is the one before. For an emoji the map refuses,
the toggle throws and returns no reactions. -/
theorem toggleReactions_refines_applyToggle (reactions : JSMap) (emoji username : String) :
    (checkValidKey emoji = true →
      ∃ toggled, toggleReactions reactions emoji username = .ok toggled ∧
        (∀ key, JSMap.get toggled key =
          applyToggle (JSMap.get reactions) emoji username key) ∧
        (JSMap.get reactions emoji = none → JSMap.get toggled emoji = some [username]) ∧
        (∀ users, JSMap.get reactions emoji = some users → username ∈ users →
          JSMap.get toggled emoji =
            if users.filter (fun u => u ≠ username) = [] then none
            else some (users.filter (fun u => u ≠ username))) ∧
        (∀ users, JSMap.get reactions emoji = some users → username ∉ users →
          JSMap.get toggled emoji = some (users ++ [username])) ∧
        (∀ key, key ≠ emoji → JSMap.get toggled key = JSMap.get reactions key)) ∧
    (checkValidKey emoji = false →
      toggleReactions reactions emoji username = .error .key) := by
  constructor
  · intro hv
    refine ⟨addReactionToggle reactions emoji username, ?_,
      addReactionToggle_cases reactions emoji username⟩
    rw [toggleReactions_eq, if_pos hv]
  · intro hv
    rw [toggleReactions_eq, hv]
    rfl

/-- On no reactions, the toggle of `👍` by `bob` returns the reactions with `bob` on `👍`. -/
theorem toggleReactions_refines_applyToggle_witness :
    ∃ toggled, toggleReactions [] "👍" "bob" = .ok toggled ∧
      JSMap.get toggled "👍" = some ["bob"] := by
  obtain ⟨toggled, h1, _, h3, _⟩ :=
    (toggleReactions_refines_applyToggle [] "👍" "bob").1 (by decide)
  exact ⟨toggled, h1, h3 rfl⟩

/-- C1, as stated, fails: with `bob` and `carol` on the emoji, in that order, two toggles by
`bob` leave `carol` first and `bob` last. -/
theorem toggle_twice_not_identity :
    ¬ ∀ (reactions : JSMap) (emoji username : String), emoji ≠ "" → username ≠ "" →
        ∀ key, JSMap.get (addReactionToggle (addReactionToggle reactions emoji username)
          emoji username) key = JSMap.get reactions key := by
  intro h
  have h1 := h [("👍", ["bob", "carol"])] "👍" "bob" (by decide) (by decide) "👍"
  revert h1
  decide

/-- C1, amended: two toggles in a row with the same emoji and username give back the stored
mapping exactly when the emoji has no entry, or its list is not empty and the username is
either not in it or in it once, as its last element. In every case the entries of the other
emojis are the ones before, and the emoji's list, when the username was in it, is the list
without the username followed by the username. -/
theorem toggle_twice_restores_iff (reactions : JSMap) (emoji username : String) :
    ((∀ key, JSMap.get (addReactionToggle (addReactionToggle reactions emoji username)
          emoji username) key = JSMap.get reactions key) ↔
      (∀ users, JSMap.get reactions emoji = some users →
        users ≠ [] ∧
        (username ∈ users → users = users.filter (fun u => u ≠ username) ++ [username]))) ∧
    (∀ key, key ≠ emoji →
      JSMap.get (addReactionToggle (addReactionToggle reactions emoji username)
          emoji username) key = JSMap.get reactions key) ∧
    (∀ users, JSMap.get reactions emoji = some users → username ∈ users →
      JSMap.get (addReactionToggle (addReactionToggle reactions emoji username)
          emoji username) emoji = some (users.filter (fun u => u ≠ username) ++ [username])) := by
  refine ⟨⟨?_, ?_⟩, ?_, ?_⟩
  · intro h users hg
    have he := h emoji
    rw [get_toggle_twice, hg] at he
    simp only [if_true] at he
    by_cases hu : username ∈ users
    · simp only [if_pos hu, Option.some.injEq] at he
      refine ⟨?_, fun _ => he.symm⟩
      intro hnil
      rw [hnil] at hu
      simp at hu
    · by_cases hnil : users = []
      · simp [if_neg hu, hnil] at he
      · exact ⟨hnil, fun hu' => absurd hu' hu⟩
  · intro h key
    rw [get_toggle_twice]
    by_cases hk : key = emoji
    · subst hk
      simp only [if_true]
      cases hg : JSMap.get reactions key with
      | none => rfl
      | some users =>
        obtain ⟨hne, hlast⟩ := h users hg
        by_cases hu : username ∈ users
        · simp only [if_pos hu]
          exact congrArg some (hlast hu).symm
        · simp only [if_neg hu, if_neg hne]
    · simp only [if_neg hk]
  · intro key hk
    rw [get_toggle_twice]
    simp only [if_neg hk]
  · intro users hg hu
    rw [get_toggle_twice, hg]
    simp only [if_true, if_pos hu]
    rfl

/-- C2: a toggle keeps "no emoji is stored with an empty list", and so does every sequence
of toggles, from the stored reactions and from the empty reactions of a new message; the
entry whose last user is removed is deleted. -/
theorem noEmptyEntry_preserved (reactions : JSMap) (emoji username : String)
    (h : NoEmptyEntry reactions) :
    NoEmptyEntry (addReactionToggle reactions emoji username) ∧
    (∀ events, NoEmptyEntry (toggleAll reactions events)) ∧
    (∀ events, NoEmptyEntry (toggleAll [] events)) ∧
    (∀ users, JSMap.get reactions emoji = some users → username ∈ users →
      users.filter (fun u => u ≠ username) = [] →
      JSMap.has (addReactionToggle reactions emoji username) emoji = false) := by
  refine ⟨noEmptyEntry_toggle reactions emoji username h,
    fun events => noEmptyEntry_toggleAll events reactions h,
    fun events => noEmptyEntry_toggleAll events [] (fun p hp => by simp at hp), ?_⟩
  intro users hg hu hf
  rw [JSMap.has_eq_isSome, get_addReactionToggle]
  simp only [applyToggle, hg, if_true, if_pos hu, if_pos hf, Option.isSome_none]

/-- With `bob` alone on an emoji, the toggle by `bob` deletes the entry. -/
theorem noEmptyEntry_preserved_witness :
    NoEmptyEntry [("👍", ["bob"])] ∧
    NoEmptyEntry (addReactionToggle [("👍", ["bob"])] "👍" "bob") ∧
    JSMap.has (addReactionToggle [("👍", ["bob"])] "👍" "bob") "👍" = false :=
  ⟨by decide,
   (noEmptyEntry_preserved [("👍", ["bob"])] "👍" "bob" (by decide)).1,
   (noEmptyEntry_preserved [("👍", ["bob"])] "👍" "bob" (by decide)).2.2.2 ["bob"]
     (by decide) (by decide) (by decide)⟩

/-- C3: a toggle keeps "no username occurs twice in the list of one emoji", and so does
every sequence of toggles, from the stored reactions and from the empty reactions of a new
message. -/
theorem noDupUser_preserved (reactions : JSMap) (emoji username : String)
    (h : NoDupUser reactions) :
    NoDupUser (addReactionToggle reactions emoji username) ∧
    (∀ events, NoDupUser (toggleAll reactions events)) ∧
    (∀ events, NoDupUser (toggleAll [] events)) :=
  ⟨noDupUser_toggle reactions emoji username h,
   fun events => noDupUser_toggleAll events reactions h,
   fun events => noDupUser_toggleAll events [] (fun p hp => by simp at hp)⟩

/-- A toggle by `carol` on an emoji that `bob` has, next to an emoji both have. -/
theorem noDupUser_preserved_witness :
    NoDupUser [("👍", ["bob"]), ("🎉", ["carol", "bob"])] ∧
    NoDupUser (addReactionToggle [("👍", ["bob"]), ("🎉", ["carol", "bob"])] "👍" "carol") :=
  ⟨by decide,
   (noDupUser_preserved [("👍", ["bob"]), ("🎉", ["carol", "bob"])] "👍" "carol"
     (by decide)).1⟩

/-- C10: on reactions with no empty list, two toggles in a row with the same emoji and
username give a mapping with the same emoji keys and, for each key, the same set of
usernames. -/
theorem toggle_twice_same_sets (reactions : JSMap) (emoji username : String)
    (h : NoEmptyEntry reactions) :
    (∀ key, JSMap.has (addReactionToggle (addReactionToggle reactions emoji username)
        emoji username) key = JSMap.has reactions key) ∧
    (∀ key, (JSMap.get (addReactionToggle (addReactionToggle reactions emoji username)
        emoji username) key).map List.toFinset =
      (JSMap.get reactions key).map List.toFinset) := by
  have main : ∀ key, (JSMap.get (addReactionToggle (addReactionToggle reactions emoji
      username) emoji username) key).map List.toFinset =
      (JSMap.get reactions key).map List.toFinset := by
    intro key
    rw [get_toggle_twice]
    by_cases hk : key = emoji
    · subst hk
      simp only [if_true]
      cases hg : JSMap.get reactions key with
      | none => rfl
      | some users =>
        have hne : users ≠ [] := noEmptyEntry_get reactions h key users hg
        by_cases hu : username ∈ users
        · simp only [if_pos hu, Option.map_some']
          congr 1
          ext x
          simp only [List.mem_toFinset, List.mem_append, List.mem_singleton, mem_filterNot]
          constructor
          · rintro (⟨hx, _⟩ | hx)
            · exact hx
            · exact hx ▸ hu
          · intro hx
            by_cases hxu : x = username
            · exact Or.inr hxu
            · exact Or.inl ⟨hx, hxu⟩
        · simp only [if_neg hu, if_neg hne]
    · simp only [if_neg hk]
  refine ⟨?_, main⟩
  intro key
  have hm := main key
  rw [JSMap.has_eq_isSome, JSMap.has_eq_isSome]
  cases h1 : JSMap.get (addReactionToggle (addReactionToggle reactions emoji username)
      emoji username) key <;> cases h2 : JSMap.get reactions key <;>
    simp [h1, h2] at hm ⊢

/-- With `bob` and `carol` on the emoji, two toggles by `bob` keep the set of both. -/
theorem toggle_twice_same_sets_witness :
    NoEmptyEntry [("👍", ["bob", "carol"])] ∧
    (JSMap.get (addReactionToggle (addReactionToggle [("👍", ["bob", "carol"])] "👍" "bob")
        "👍" "bob") "👍").map List.toFinset =
      (JSMap.get [("👍", ["bob", "carol"])] "👍").map List.toFinset :=
  ⟨by decide, (toggle_twice_same_sets [("👍", ["bob", "carol"])] "👍" "bob" (by decide)).2 "👍"⟩

/-! ## The query `find().sort().limit(100)` -/

theorem sortByTimestamp_perm (store : Store) : (sortByTimestamp store).Perm store :=
  List.perm_insertionSort _ store

theorem sortByTimestamp_sorted (store : Store) :
    (sortByTimestamp store).Sorted (fun a b => a.timestamp ≤ b.timestamp) := by
  haveI : IsTotal Message (fun a b => a.timestamp ≤ b.timestamp) :=
    ⟨fun a b => Nat.le_total a.timestamp b.timestamp⟩
  haveI : IsTrans Message (fun a b => a.timestamp ≤ b.timestamp) :=
    ⟨fun _ _ _ hab hbc => Nat.le_trans hab hbc⟩
  exact List.sorted_insertionSort _ store

theorem findSortLimit_append_drop (store : Store) :
    findSortLimit store ++ (sortByTimestamp store).drop 100 = sortByTimestamp store :=
  List.take_append_drop 100 (sortByTimestamp store)

/-- Every document the query returns is at most as recent as every document it leaves. -/
theorem findSortLimit_le_rest (store : Store) (m : Message) (hm : m ∈ findSortLimit store)
    (m' : Message) (hs : m' ∈ store) (hn : m' ∉ findSortLimit store) :
    m.timestamp ≤ m'.timestamp := by
  have hsorted := sortByTimestamp_sorted store
  rw [← findSortLimit_append_drop store] at hsorted
  have hmem : m' ∈ findSortLimit store ++ (sortByTimestamp store).drop 100 := by
    rw [findSortLimit_append_drop]
    exact (sortByTimestamp_perm store).mem_iff.2 hs
  rcases List.mem_append.1 hmem with h | h
  · exact absurd h hn
  · exact (List.pairwise_append.1 hsorted).2.2 m hm m' h

theorem findSortLimit_storeOf101 : findSortLimit storeOf101 = storeOf101.take 100 := by
  decide

theorem connection_ok (store : Store) (env : Env) (h : env.findFails = false) :
    connection store env =
      [Emit.socketEmit "load-messages" (Payload.messages (findSortLimit store))] := by
  simp [connection, findMessages, h]

theorem getApiMessages_ok (store : Store) (env : Env) (h : env.findFails = false) :
    getApiMessages store env =
      { status := 200, body := Payload.messages (findSortLimit store) } := by
  simp [getApiMessages, findMessages, h]

/-- C4, as stated, fails: of 101 documents with the timestamps 0 to 100 the query returns
the one of timestamp 0 and leaves the one of timestamp 100. -/
theorem findSortLimit_not_most_recent :
    ¬ ∀ store : Store, 100 < store.length →
        ∀ m ∈ findSortLimit store, ∀ m' ∈ store, m' ∉ findSortLimit store →
          m'.timestamp ≤ m.timestamp := by
  intro h
  have h1 := h storeOf101 (by decide)
    { _id := 1, text := some "m", sender := some "a", timestamp := 0, reactions := [] }
    (by rw [findSortLimit_storeOf101]; decide)
    { _id := 101, text := some "m", sender := some "a", timestamp := 100, reactions := [] }
    (by decide)
    (by rw [findSortLimit_storeOf101]; decide)
  exact absurd h1 (by decide)

/-- C4, amended: the list sent on connect (`load-messages`) and the list returned by
`GET /api/messages` is the query `find().sort(timestamp: 1).limit(100)`, which consists of
the 100 oldest documents, all of them when the collection holds at most 100: it has
`min 100 n` of the `n` documents, and every returned document has a timestamp less than or
equal to that of every document that is not returned. -/
theorem findSortLimit_oldest (store : Store) :
    (∀ env : Env, env.findFails = false →
      connection store env =
        [Emit.socketEmit "load-messages" (Payload.messages (findSortLimit store))] ∧
      getApiMessages store env =
        { status := 200, body := Payload.messages (findSortLimit store) }) ∧
    (findSortLimit store).length = min 100 store.length ∧
    (store.length ≤ 100 → (findSortLimit store).Perm store) ∧
    (∀ m ∈ findSortLimit store, ∀ m' ∈ store, m' ∉ findSortLimit store →
      m.timestamp ≤ m'.timestamp) := by
  refine ⟨fun env h => ⟨connection_ok store env h, getApiMessages_ok store env h⟩, ?_, ?_,
    fun m hm m' hs hn => findSortLimit_le_rest store m hm m' hs hn⟩
  · simp [findSortLimit, limit, (sortByTimestamp_perm store).length_eq]
  · intro hlen
    have : findSortLimit store = sortByTimestamp store := by
      unfold findSortLimit limit
      exact List.take_of_length_le (by rw [(sortByTimestamp_perm store).length_eq]; exact hlen)
    rw [this]
    exact sortByTimestamp_perm store

/-- C5: the list of the query, which the `connection` handler sends and `GET /api/messages`
returns, has at most 100 documents, each a document of the collection (and none more often
than the collection has it), in non-decreasing order of timestamp. -/
theorem findSortLimit_bounded_sorted (store : Store) :
    (∀ env : Env, env.findFails = false →
      connection store env =
        [Emit.socketEmit "load-messages" (Payload.messages (findSortLimit store))] ∧
      getApiMessages store env =
        { status := 200, body := Payload.messages (findSortLimit store) }) ∧
    (findSortLimit store).length ≤ 100 ∧
    (∀ m ∈ findSortLimit store, m ∈ store) ∧
    (findSortLimit store).Subperm store ∧
    (findSortLimit store).Sorted (fun a b => a.timestamp ≤ b.timestamp) := by
  refine ⟨fun env h => ⟨connection_ok store env h, getApiMessages_ok store env h⟩, ?_, ?_,
    ?_, ?_⟩
  · simp [findSortLimit, limit]
  · intro m hm
    exact (sortByTimestamp_perm store).mem_iff.1 (List.mem_of_mem_take hm)
  · exact (List.take_sublist 100 (sortByTimestamp store)).subperm.trans
      (sortByTimestamp_perm store).subperm
  · exact (sortByTimestamp_sorted store).sublist (List.take_sublist 100 _)

/-! ## The handlers -/

theorem lt_freshId (store : Store) (m : Message) (h : m ∈ store) : m._id < freshId store := by
  unfold freshId
  induction store with
  | nil => simp at h
  | cons a rest ih =>
    simp only [List.map_cons, List.foldr_cons]
    rcases List.mem_cons.1 h with h | h
    · subst h
      omega
    · have := ih h
      omega

theorem any_freshId (store : Store) (env : Env) (text sender : Option String) :
    store.any (fun m => decide (m._id = (newMessage store env text sender)._id)) = false := by
  rw [List.any_eq_false]
  intro m hm
  have := lt_freshId store m hm
  simp only [newMessage, decide_eq_true_eq]
  omega

/-- Saving a new document inserts it at the end: its `_id` is not in the collection. -/
theorem save_newMessage (store : Store) (env : Env) (text sender : Option String) :
    save store env (newMessage store env text sender) =
      if required text && required sender then
        if env.saveFails then .error .write
        else .ok (store ++ [newMessage store env text sender])
      else .error .validation := by
  have hany := any_freshId store env text sender
  unfold save
  rw [hany]
  rfl

/-- The `send-message` handler by cases. -/
theorem sendMessage_eq (store : Store) (env : Env) (data : SendMessageData) :
    sendMessage store env data =
      if required data.text && required data.sender && !env.saveFails then
        (store ++ [newMessage store env data.text data.sender],
          [Emit.ioEmit "new-message"
            (Payload.message (newMessage store env data.text data.sender))])
      else
        (store, [Emit.socketEmit "error" (Payload.failure "Failed to send message")]) := by
  simp only [sendMessage, sendMessageTry]
  rw [save_newMessage]
  cases h1 : required data.text <;> cases h2 : required data.sender <;>
    cases h3 : env.saveFails <;> rfl

/-- The `add-reaction` handler by cases. -/
theorem addReaction_eq (store : Store) (env : Env) (data : AddReactionData) :
    addReaction store env data =
      match findById store env data.messageId with
      | .ok (some message) =>
        (match toggleReactions message.reactions data.emoji data.username with
          | .ok reactions =>
            (match save store env { message with reactions := reactions } with
              | .ok store' =>
                (store', [Emit.ioEmit "reaction-updated"
                  (Payload.reactionUpdated message._id reactions)])
              | .error _ => (store, []))
          | .error _ => (store, []))
      | _ => (store, []) := by
  unfold addReaction addReactionTry
  cases hf : findById store env data.messageId with
  | error e => rfl
  | ok found =>
    cases found with
    | none => rfl
    | some message =>
      cases ht : toggleReactions message.reactions data.emoji data.username with
      | error e => simp [bind, Except.bind, ht]
      | ok reactions =>
        cases hs : save store env { message with reactions := reactions } with
        | error e => simp [bind, Except.bind, ht, hs]
        | ok store' => simp [bind, Except.bind, ht, hs, pure, Except.pure]

/-- The handler on a collection of one message: a toggle of `👍` by `bob` stores and
broadcasts the reactions with `bob` on `👍`; with the emoji `a.b`, with an unknown
`messageId`, and when the lookup or the write rejects, nothing is stored or emitted. -/
theorem addReaction_storeOfOne :
    addReaction storeOfOne { findFails := false, saveFails := false, now := 9 }
        { messageId := 1, emoji := "👍", username := "bob" } =
      ([{ _id := 1, text := some "hi", sender := some "alice", timestamp := 5,
          reactions := [("👍", ["bob"])] }],
       [Emit.ioEmit "reaction-updated" (Payload.reactionUpdated 1 [("👍", ["bob"])])]) ∧
    addReaction storeOfOne { findFails := false, saveFails := false, now := 9 }
        { messageId := 1, emoji := "a.b", username := "bob" } = (storeOfOne, []) ∧
    addReaction storeOfOne { findFails := false, saveFails := false, now := 9 }
        { messageId := 2, emoji := "👍", username := "bob" } = (storeOfOne, []) ∧
    addReaction storeOfOne { findFails := true, saveFails := false, now := 9 }
        { messageId := 1, emoji := "👍", username := "bob" } = (storeOfOne, []) ∧
    addReaction storeOfOne { findFails := false, saveFails := true, now := 9 }
        { messageId := 1, emoji := "👍", username := "bob" } = (storeOfOne, []) := by
  refine ⟨?_, ?_, ?_, ?_, ?_⟩ <;> decide

/-- C7: the `add-reaction` handler emits something exactly when the lookup finds the message
and the save of the message with the toggled reactions succeeds, which takes that the
toggle produced these reactions; it then emits one `reaction-updated` with the `_id` and
the toggled reactions, which every connected socket receives. In every other case (no such
message, a lookup or a save that rejects, a toggle that throws before the save) it emits
nothing, so that no socket receives anything; with no document of that `messageId` the
collection is also the one before. -/
theorem addReaction_emits (store : Store) (env : Env) (data : AddReactionData) :
    ((addReaction store env data).2 ≠ [] ↔
      ∃ message reactions store', findById store env data.messageId = .ok (some message) ∧
        toggleReactions message.reactions data.emoji data.username = .ok reactions ∧
        save store env { message with reactions := reactions } = .ok store') ∧
    (∀ message reactions store', findById store env data.messageId = .ok (some message) →
      toggleReactions message.reactions data.emoji data.username = .ok reactions →
      save store env { message with reactions := reactions } = .ok store' →
      reactions = addReactionToggle message.reactions data.emoji data.username ∧
      addReaction store env data =
        (store', [Emit.ioEmit "reaction-updated"
          (Payload.reactionUpdated message._id reactions)]) ∧
      ∀ (sockets : List Nat) (origin : Nat),
        deliverAll sockets origin (addReaction store env data).2 =
          sockets.map (fun s =>
            (s, "reaction-updated", Payload.reactionUpdated message._id reactions))) ∧
    ((¬ ∃ message reactions store', findById store env data.messageId = .ok (some message) ∧
        toggleReactions message.reactions data.emoji data.username = .ok reactions ∧
        save store env { message with reactions := reactions } = .ok store') →
      (addReaction store env data).2 = [] ∧
      ∀ (sockets : List Nat) (origin : Nat),
        deliverAll sockets origin (addReaction store env data).2 = []) ∧
    (store.find? (fun m => m._id = data.messageId) = none →
      addReaction store env data = (store, [])) ∧
    (checkValidKey data.emoji = false → addReaction store env data = (store, [])) := by
  cases hf : findById store env data.messageId with
  | error e =>
    have hv : addReaction store env data = (store, []) := by rw [addReaction_eq, hf]
    rw [hv]
    refine ⟨by simp, by simp, fun _ => ⟨rfl, fun _ _ => rfl⟩, fun _ => rfl, fun _ => rfl⟩
  | ok found =>
    cases found with
    | none =>
      have hv : addReaction store env data = (store, []) := by rw [addReaction_eq, hf]
      rw [hv]
      refine ⟨by simp, by simp, fun _ => ⟨rfl, fun _ _ => rfl⟩, fun _ => rfl, fun _ => rfl⟩
    | some message =>
      have hfound : store.find? (fun m => m._id = data.messageId) = some message := by
        unfold findById at hf
        split at hf
        · cases hf
        · simpa using hf
      cases ht : toggleReactions message.reactions data.emoji data.username with
      | error e =>
        have hv : addReaction store env data = (store, []) := by
          rw [addReaction_eq, hf]
          simp only [ht]
        rw [hv]
        refine ⟨?_, ?_, fun _ => ⟨rfl, fun _ _ => rfl⟩, fun _ => rfl, fun _ => rfl⟩
        · constructor
          · intro h; exact absurd rfl h
          · rintro ⟨m, r, s', hm, hr, _⟩
            simp only [Except.ok.injEq, Option.some.injEq] at hm
            subst hm
            rw [ht] at hr
            cases hr
        · intro m r s' hm hr
          simp only [Except.ok.injEq, Option.some.injEq] at hm
          subst hm
          rw [ht] at hr
          cases hr
      | ok reactions =>
        have hvalid : checkValidKey data.emoji = true := by
          rw [toggleReactions_eq] at ht
          by_cases hc : checkValidKey data.emoji = true
          · exact hc
          · rw [if_neg hc] at ht
            cases ht
        have hplain : reactions =
            addReactionToggle message.reactions data.emoji data.username := by
          rw [toggleReactions_eq, if_pos hvalid] at ht
          simp only [Except.ok.injEq] at ht
          exact ht.symm
        cases hs : save store env { message with reactions := reactions } with
        | error e =>
          have hv : addReaction store env data = (store, []) := by
            rw [addReaction_eq, hf]
            simp only [ht, hs]
          rw [hv]
          refine ⟨?_, ?_, fun _ => ⟨rfl, fun _ _ => rfl⟩, fun _ => rfl, fun _ => rfl⟩
          · constructor
            · intro h; exact absurd rfl h
            · rintro ⟨m, r, s', hm, hr, hs'⟩
              simp only [Except.ok.injEq, Option.some.injEq] at hm
              subst hm
              rw [ht] at hr
              simp only [Except.ok.injEq] at hr
              subst hr
              rw [hs] at hs'
              cases hs'
          · intro m r s' hm hr hs'
            simp only [Except.ok.injEq, Option.some.injEq] at hm
            subst hm
            rw [ht] at hr
            simp only [Except.ok.injEq] at hr
            subst hr
            rw [hs] at hs'
            cases hs'
        | ok store' =>
          have hv : addReaction store env data =
              (store', [Emit.ioEmit "reaction-updated"
                (Payload.reactionUpdated message._id reactions)]) := by
            rw [addReaction_eq, hf]
            simp only [ht, hs]
          rw [hv]
          refine ⟨?_, ?_, fun hno => ?_, fun hnone => ?_, fun hbad => ?_⟩
          · constructor
            · intro _; exact ⟨message, reactions, store', rfl, ht, hs⟩
            · intro _; simp
          · intro m r s' hm hr hs'
            simp only [Except.ok.injEq, Option.some.injEq] at hm
            subst hm
            rw [ht] at hr
            simp only [Except.ok.injEq] at hr
            subst hr
            rw [hs] at hs'
            simp only [Except.ok.injEq] at hs'
            subst hs'
            refine ⟨hplain, rfl, fun sockets origin => ?_⟩
            simp [deliverAll, deliver]
          · exact absurd ⟨message, reactions, store', rfl, ht, hs⟩ hno
          · rw [hfound] at hnone
            cases hnone
          · rw [hvalid] at hbad
            cases hbad

/-- On the collection of one message, the toggle of `👍` by `bob` emits. -/
theorem addReaction_emits_witness :
    (addReaction storeOfOne { findFails := false, saveFails := false, now := 9 }
      { messageId := 1, emoji := "👍", username := "bob" }).2 ≠ [] :=
  (addReaction_emits storeOfOne { findFails := false, saveFails := false, now := 9 }
    { messageId := 1, emoji := "👍", username := "bob" }).1.2
    ⟨{ _id := 1, text := some "hi", sender := some "alice", timestamp := 5, reactions := [] },
     [("👍", ["bob"])],
     [{ _id := 1, text := some "hi", sender := some "alice", timestamp := 5,
        reactions := [("👍", ["bob"])] }],
     rfl, rfl, rfl⟩

/-- C8: a `send-message` whose text or sender is missing or empty, or whose write rejects,
leaves the collection as it was and emits one `error`, with `socket.emit`: the socket of the
sender receives it and no other socket receives anything. -/
theorem sendMessage_failure (store : Store) (env : Env) (data : SendMessageData)
    (sockets : List Nat) (origin : Nat)
    (h : required data.text = false ∨ required data.sender = false ∨ env.saveFails = true) :
    sendMessage store env data =
      (store, [Emit.socketEmit "error" (Payload.failure "Failed to send message")]) ∧
    deliverAll sockets origin (sendMessage store env data).2 =
      [(origin, "error", Payload.failure "Failed to send message")] := by
  have hcond : (required data.text && required data.sender && !env.saveFails) = false := by
    rcases h with h | h | h <;> simp [h]
  have heq : sendMessage store env data =
      (store, [Emit.socketEmit "error" (Payload.failure "Failed to send message")]) := by
    rw [sendMessage_eq, hcond]
    rfl
  refine ⟨heq, ?_⟩
  rw [heq]
  rfl

/-- An empty text from socket 2, with the sockets 1, 2 and 3 connected. -/
theorem sendMessage_failure_witness :
    sendMessage [] { findFails := false, saveFails := false, now := 7 }
        { text := some "", sender := some "alice" } =
      ([], [Emit.socketEmit "error" (Payload.failure "Failed to send message")]) ∧
    deliverAll [1, 2, 3] 2 (sendMessage [] { findFails := false, saveFails := false, now := 7 }
        { text := some "", sender := some "alice" }).2 =
      [(2, "error", Payload.failure "Failed to send message")] :=
  sendMessage_failure [] { findFails := false, saveFails := false, now := 7 }
    { text := some "", sender := some "alice" } [1, 2, 3] 2 (Or.inl (by decide))

/-- C9: a `send-message` with a text and a sender that are not empty, whose write does not
reject, adds one document at the end of the collection, with that text, that sender and
empty reactions, and emits one `new-message` carrying that document, with `io.emit`: every
connected socket receives it, and nothing else is emitted. -/
theorem sendMessage_success (store : Store) (env : Env) (data : SendMessageData)
    (sockets : List Nat) (origin : Nat) (text sender : String)
    (ht : data.text = some text) (hs : data.sender = some sender)
    (htne : text ≠ "") (hsne : sender ≠ "") (hw : env.saveFails = false) :
    ∃ message : Message,
      message.text = some text ∧ message.sender = some sender ∧ message.reactions = [] ∧
      (∀ m ∈ store, m._id ≠ message._id) ∧
      sendMessage store env data =
        (store ++ [message], [Emit.ioEmit "new-message" (Payload.message message)]) ∧
      deliverAll sockets origin (sendMessage store env data).2 =
        sockets.map (fun s => (s, "new-message", Payload.message message)) := by
  have hcond : (required data.text && required data.sender && !env.saveFails) = true := by
    simp [ht, hs, hw, required, htne, hsne]
  have heq : sendMessage store env data =
      (store ++ [newMessage store env data.text data.sender],
        [Emit.ioEmit "new-message"
          (Payload.message (newMessage store env data.text data.sender))]) := by
    rw [sendMessage_eq, hcond]
    rfl
  refine ⟨newMessage store env data.text data.sender, ht, hs, rfl, ?_, heq, ?_⟩
  · intro m hm
    have := lt_freshId store m hm
    simp only [newMessage]
    omega
  · rw [heq]
    simp [deliverAll, deliver]

/-- The text `hi` by `alice` from socket 2, with the sockets 1, 2 and 3 connected. -/
theorem sendMessage_success_witness :
    ∃ message : Message,
      message.text = some "hi" ∧ message.sender = some "alice" ∧ message.reactions = [] ∧
      (∀ m ∈ ([] : Store), m._id ≠ message._id) ∧
      sendMessage [] { findFails := false, saveFails := false, now := 7 }
          { text := some "hi", sender := some "alice" } =
        ([] ++ [message], [Emit.ioEmit "new-message" (Payload.message message)]) ∧
      deliverAll [1, 2, 3] 2 (sendMessage [] { findFails := false, saveFails := false, now := 7 }
          { text := some "hi", sender := some "alice" }).2 =
        [1, 2, 3].map (fun s => (s, "new-message", Payload.message message)) :=
  sendMessage_success [] { findFails := false, saveFails := false, now := 7 }
    { text := some "hi", sender := some "alice" } [1, 2, 3] 2 "hi" "alice" rfl rfl
    (by decide) (by decide) rfl

end ChatApp
